import Mathlib

/-!
Verification of the local record-keeping routines of the job-hunting tools
repository. The definitions below are a shallow embedding of
src/job_hunting_tools_backend.py (and the record-update slot of
src/job_hunting_tools_main_ui.py). The company directory is modelled as the
list of names of the regular files it contains, in directory order.
-/

namespace JobHunting

/-! ## Python string primitives used by the backend -/

/-- Model of Python str.replace(" ", "_") for the single-character pattern:
every space character is replaced by an underscore. -/
def pyReplaceSpaceUnderscore (s : String) : String :=
  ⟨s.data.map (fun c => if c = ' ' then '_' else c)⟩

/-- Model of Python str.lower(), adequate on ASCII input: each character is
lowercased independently. -/
def pyLower (s : String) : String :=
  ⟨s.data.map Char.toLower⟩

/-- The normalisation `name.replace(" ", "_").lower()` applied by the backend
to company and file names (backend lines 148, 175, 182, 184). -/
def pyNormalize (s : String) : String :=
  pyLower (pyReplaceSpaceUnderscore s)

/-- Model of Python str.startswith on the underlying character lists:
`listStartsWith pre cs` is true when `pre` is an initial segment of `cs`. -/
def listStartsWith : List Char → List Char → Bool
  | [], _ => true
  | _ :: _, [] => false
  | p :: ps, c :: cs => p = c && listStartsWith ps cs

/-- Python `s.startswith(pre)`. -/
def pyStartswith (s pre : String) : Bool :=
  listStartsWith pre.data s.data

/-- The decimal digit characters. -/
def digitChar : Nat → Char
  | 0 => '0' | 1 => '1' | 2 => '2' | 3 => '3' | 4 => '4'
  | 5 => '5' | 6 => '6' | 7 => '7' | 8 => '8' | 9 => '9'
  | _ => '*'

/-- Plain decimal rendering of a natural number, with explicit fuel so that
the definition is structurally recursive. -/
def natDecAux : Nat → Nat → List Char
  | 0, _ => []
  | fuel + 1, n => if n < 10 then [digitChar n] else natDecAux fuel (n / 10) ++ [digitChar (n % 10)]

/-- Decimal rendering of a natural number. -/
def natDec (n : Nat) : List Char := natDecAux (n + 1) n

/-- Model of the Python format specifier `{n:03d}`: the decimal rendering of
`n` zero-padded on the left to width 3 (numbers of four or more digits are
rendered unpadded). -/
def pad3 (n : Nat) : String :=
  if n < 1000 then ⟨[digitChar (n / 100), digitChar (n / 10 % 10), digitChar (n % 10)]⟩
  else ⟨natDec n⟩

/-! ## File naming (backend lines 174-186) -/

/-- The JSON file name `f"{base}_{i:03d}_job_description.json"` built at
backend lines 175 and 184. -/
def jsonName (base : String) (i : Nat) : String :=
  base ++ "_" ++ pad3 i ++ "_job_description.json"

/-- Backend line 174: `file_name = f"{company_name}_{position}"`, to which
`.replace(" ", "_").lower()` is applied wherever it is used. -/
def base_name (company_name position : String) : String :=
  pyNormalize (company_name ++ "_" ++ position)

/-- Backend lines 180-183: starting from `new_file_index = 1`, the loop adds
one for every file of the directory whose name starts with `base ++ "_"`. -/
def chooseIndex (files : List String) (base : String) : Nat :=
  files.foldl (fun acc f => if pyStartswith f (base ++ "_") then acc + 1 else acc) 1

/-- Backend lines 174-184: the name under which `log_job_applied_for` saves
the record. The first candidate is `{base}_001_job_description.json`; if a
file of that exact name already exists in the directory, the index becomes
the loop counter computed by `chooseIndex`. -/
def chooseJsonName (files : List String) (company_name position : String) : String :=
  let base := base_name company_name position
  let jsong1 := jsonName base 1
  if jsong1 ∈ files then jsonName base (chooseIndex files base) else jsong1

/-- Effect of `path.open("w")` on the directory listing: the file is created
if absent; an existing file of the same name is truncated (overwritten), so
the listing is unchanged. -/
def pyWriteFileName (files : List String) (name : String) : List String :=
  if name ∈ files then files else files ++ [name]

/-- Directory contents after `n` calls of `log_job_applied_for` with the
same company name and position, starting from an empty company directory. -/
def runSame (company_name position : String) : Nat → List String
  | 0 => []
  | n + 1 =>
    let files := runSame company_name position n
    pyWriteFileName files (chooseJsonName files company_name position)

/-! ## Folder creation (backend lines 139-159) -/

/-- Backend lines 139-159: the company folder path returned by
`create_folder_structure`; the normalised company name appended to the
configured root. -/
def create_folder_structure (company_name : String) (job_root_path : String) : String :=
  job_root_path ++ "/" ++ pyNormalize company_name

/-! ## JSON serialisation (backend lines 120-137)

`json.dump(job_data, f, ensure_ascii=False, indent=4)` on a flat
string-to-string dict produces an opening brace, one line per entry indented
by four spaces with `"key": "value"`, entries separated by a comma and
newline, and a closing brace on its own line. Non-ASCII characters are kept
as they are; only the quote, the backslash and control characters are
escaped. -/

/-- Lowercase hexadecimal digits, as Python uses in its \uXXXX escapes. -/
def hexDigitChar : Nat → Char
  | 0 => '0' | 1 => '1' | 2 => '2' | 3 => '3' | 4 => '4'
  | 5 => '5' | 6 => '6' | 7 => '7' | 8 => '8' | 9 => '9'
  | 10 => 'a' | 11 => 'b' | 12 => 'c' | 13 => 'd' | 14 => 'e' | 15 => 'f'
  | _ => '*'

/-- The JSON escaping of one character performed by `json.dump` with
`ensure_ascii=False`: quote, backslash and the named control characters get
two-character escapes, the remaining control characters get \u00XX, and
every other character (ASCII or not) is kept as it is. -/
def escChar (c : Char) : List Char :=
  if c = '"' then ['\\', '"']
  else if c = '\\' then ['\\', '\\']
  else if c = '\n' then ['\\', 'n']
  else if c = '\r' then ['\\', 'r']
  else if c = '\t' then ['\\', 't']
  else if c.toNat = 8 then ['\\', 'b']
  else if c.toNat = 12 then ['\\', 'f']
  else if c.toNat < 32 then ['\\', 'u', '0', '0', hexDigitChar (c.toNat / 16), hexDigitChar (c.toNat % 16)]
  else [c]

def escList (cs : List Char) : List Char := (cs.map escChar).flatten

/-- The serialised form of one JSON string value. -/
def pyJsonStr (s : String) : String := ⟨'"' :: (escList s.data ++ ['"'])⟩

/-- One line of the indented dict: four spaces, key, colon, space, value. -/
def itemLine (kv : String × String) : String :=
  "    " ++ pyJsonStr kv.1 ++ ": " ++ pyJsonStr kv.2

/-- Join with the separator `",\n"` used between entries at indent 4. -/
def joinCommaNl : List String → String
  | [] => ""
  | [x] => x
  | x :: y :: xs => x ++ ",\n" ++ joinCommaNl (y :: xs)

/-- `json.dump(kvs, f, ensure_ascii=False, indent=4)` for a non-empty flat
string dict `kvs` (the records of this program always have four entries). -/
def pyJsonDump4 (kvs : List (String × String)) : String :=
  "\x7b\n" ++ joinCommaNl (kvs.map itemLine) ++ "\n\x7d"

/-- Backend lines 128-133: the dict serialised by `write_json_file`, in
insertion order. -/
def job_data (job_description position company_name date_applied : String) :
    List (String × String) :=
  [("job_description", job_description),
   ("position_name", position),
   ("company_name", company_name),
   ("date_applied", date_applied)]

/-! ## The effectful operations -/

/-- The ambient state a backend call runs in: the regular files of the
company directory, the system clipboard, the current time rendered by
`datetime.datetime.now().isoformat()`, and whether opening the JSON path
for writing raises IOError (path not writable). -/
structure Env where
  files : List String
  clipboard : String
  now : String
  writeFails : Bool
deriving DecidableEq

structure FileWrite where
  name : String
  content : String
deriving DecidableEq

structure WriteResult where
  files : List String
  written : FileWrite
deriving DecidableEq

/-- Backend lines 120-137. `write_json_file` reads the clipboard for the
job description, builds `job_data`, and writes its JSON serialisation to
the given path; an unwritable path makes `open("w")` raise (modelled as
`Except.error`), and nothing in the function catches it. -/
def write_json_file (env : Env) (position company_name : String) (name : String) :
    Except String WriteResult :=
  let job_description := env.clipboard
  let data := job_data job_description position company_name env.now
  if env.writeFails then Except.error "IOError"
  else Except.ok ⟨pyWriteFileName env.files name, ⟨name, pyJsonDump4 data⟩⟩

structure LogOutcome where
  files : List String
  written : FileWrite
  ret : Option String
deriving DecidableEq

/-- Backend lines 161-190. `log_job_applied_for` chooses the file name,
delegates to `write_json_file`, and falls off the end of the function body:
its Python return value is always None (`ret := none`); an exception from
the write propagates to the caller. -/
def log_job_applied_for (env : Env) (company_name position : String) :
    Except String LogOutcome :=
  let jsong_name := chooseJsonName env.files company_name position
  match write_json_file env position company_name jsong_name with
  | Except.error e => Except.error e
  | Except.ok w => Except.ok ⟨w.files, w.written, none⟩

/-! ## Google-sheet operations (backend lines 55-118, UI lines 413-428) -/

/-- Python truthiness of an optional string: None and the empty string are
falsy. -/
def pyTruthy : Option String → Bool
  | none => false
  | some s => s != ""

inductive Worksheet
  | byName (n : String)
  | byIndex (i : Nat)
deriving DecidableEq

/-- The observable spreadsheet interaction of `update_google_sheet`: the
worksheet selected, the index of the inserted blank row, the anchor range
of the append and the appended rows. -/
structure SheetOps where
  target : Worksheet
  blank_row_index : Nat
  table_range : String
  rows : List (List String)
deriving DecidableEq

/-- Backend lines 91-118. When `tab_name` is truthy the worksheet literally
named "Jobs Applied For" is selected (the value of `tab_name` is not used);
otherwise the worksheet at index 0. A blank row is inserted at index 2 and
the data rows are appended at anchor "A2". -/
def update_google_sheet (data : List (List String)) (tab_name : Option String) : SheetOps :=
  { target := if pyTruthy tab_name then Worksheet.byName "Jobs Applied For"
              else Worksheet.byIndex 0
    blank_row_index := 2
    table_range := "A2"
    rows := data }

/-- Backend lines 55-74. `log_google_sheet_data` authenticates and calls
`update_google_sheet`; `remoteFailure` injects any exception raised by the
remote client, which the function does not catch; on success the function
returns None. -/
def log_google_sheet_data (remoteFailure : Option String)
    (data : List (List String)) (tab_name : Option String) :
    Except String (SheetOps × Option String) :=
  match remoteFailure with
  | some e => Except.error e
  | none => Except.ok (update_google_sheet data tab_name, none)

/-- Python f-string rendering of a value that is either None or a str. -/
def pyStrOfOpt : Option String → String
  | none => "None"
  | some s => s

/-- UI lines 421-428, the spreadsheet half of `_update_records`: the call to
`log_google_sheet_data` stands bare (no try/except), and only when it
returns is the states label set to
`f"{job_log_result}\n{google_sheet_result}"`. The first component is the
label text produced (or the propagating exception); the second is the
company directory listing, which this code never touches. -/
def update_records_sheet_phase (files : List String) (job_log_result : Option String)
    (data : List (List String)) (tab_name : Option String)
    (remoteFailure : Option String) :
    Except String String × List String :=
  (match log_google_sheet_data remoteFailure data tab_name with
   | Except.error e => Except.error e
   | Except.ok (_, r) => Except.ok (pyStrOfOpt job_log_result ++ "\n" ++ pyStrOfOpt r),
   files)

/-! ## JSON deserialisation

A recursive-descent reader for the JSON subset that `write_json_file`
produces: a flat object of four string entries at indent 4. It models what
`json.load` returns on such a file. -/

/-- Value of one hexadecimal digit. -/
def hexVal (c : Char) : Option Nat :=
  if '0' ≤ c ∧ c ≤ '9' then some (c.toNat - 48)
  else if 'a' ≤ c ∧ c ≤ 'f' then some (c.toNat - 87)
  else if 'A' ≤ c ∧ c ≤ 'F' then some (c.toNat - 55)
  else none

/-- The character denoted by a two-character JSON escape. -/
def unescChar (d : Char) : Option Char :=
  if d = '"' then some '"'
  else if d = '\\' then some '\\'
  else if d = '/' then some '/'
  else if d = 'b' then some (Char.ofNat 8)
  else if d = 'f' then some (Char.ofNat 12)
  else if d = 'n' then some '\n'
  else if d = 'r' then some '\r'
  else if d = 't' then some '\t'
  else none

/-- Split a raw string-literal body at its closing quote: returns the raw
characters before the first unescaped quote, and the rest of the input. -/
def splitStr : List Char → Option (List Char × List Char)
  | [] => none
  | c :: rest =>
    if c = '"' then some ([], rest)
    else if c = '\\' then
      match rest with
      | [] => none
      | d :: rest2 =>
        match splitStr rest2 with
        | none => none
        | some (a, b) => some (c :: d :: a, b)
    else
      match splitStr rest with
      | none => none
      | some (a, b) => some (c :: a, b)

/-- Decode the escapes inside a raw string-literal body. -/
def unescape : List Char → Option (List Char)
  | [] => some []
  | c :: rest =>
    if c = '\\' then
      match rest with
      | [] => none
      | d :: rest2 =>
        if d = 'u' then
          match rest2 with
          | h1 :: h2 :: h3 :: h4 :: rest3 =>
            match hexVal h1, hexVal h2, hexVal h3, hexVal h4 with
            | some a, some b, some e, some f =>
              match unescape rest3 with
              | none => none
              | some cs => some (Char.ofNat (((a * 16 + b) * 16 + e) * 16 + f) :: cs)
            | _, _, _, _ => none
          | _ => none
        else
          match unescChar d with
          | none => none
          | some u =>
            match unescape rest2 with
            | none => none
            | some cs => some (u :: cs)
    else
      match unescape rest with
      | none => none
      | some cs => some (c :: cs)

/-- Read one `    "key": "value"` entry; returns the decoded pair and the
rest of the input after the value's closing quote. -/
def parseKV (l : List Char) : Option ((String × String) × List Char) :=
  match l with
  | ' ' :: ' ' :: ' ' :: ' ' :: '"' :: r0 =>
    match splitStr r0 with
    | none => none
    | some (rawk, r1) =>
      match unescape rawk with
      | none => none
      | some k =>
        match r1 with
        | ':' :: ' ' :: '"' :: r2 =>
          match splitStr r2 with
          | none => none
          | some (rawv, r3) =>
            match unescape rawv with
            | none => none
            | some v => some ((⟨k⟩, ⟨v⟩), r3)
        | _ => none
  | _ => none

/-- Read a whole record file: a four-entry object at indent 4, exactly the
shape `write_json_file` produces. Returns the entries in file order. -/
def parseRecord (s : String) : Option (List (String × String)) :=
  match s.data with
  | '\x7b' :: '\n' :: r0 =>
    match parseKV r0 with
    | some (kv1, ',' :: '\n' :: r1) =>
      match parseKV r1 with
      | some (kv2, ',' :: '\n' :: r2) =>
        match parseKV r2 with
        | some (kv3, ',' :: '\n' :: r3) =>
          match parseKV r3 with
          | some (kv4, ['\n', '\x7d']) => some [kv1, kv2, kv3, kv4]
          | _ => none
        | _ => none
      | _ => none
    | _ => none
  | _ => none

/-! ## Helper lemmas about naming -/

theorem digitChar_inj : ∀ a, a < 10 → ∀ b, b < 10 → digitChar a = digitChar b → a = b := by
  decide

theorem pad3_lt (h : n < 1000) :
    pad3 n = ⟨[digitChar (n / 100), digitChar (n / 10 % 10), digitChar (n % 10)]⟩ := by
  simp [pad3, h]

theorem pad3_inj {i j : Nat} (hi : i < 1000) (hj : j < 1000) (h : pad3 i = pad3 j) : i = j := by
  rw [pad3_lt hi, pad3_lt hj] at h
  have h2 : [digitChar (i / 100), digitChar (i / 10 % 10), digitChar (i % 10)]
      = [digitChar (j / 100), digitChar (j / 10 % 10), digitChar (j % 10)] := by
    have := congrArg String.data h
    simpa using this
  simp only [List.cons.injEq, and_true] at h2
  obtain ⟨e1, e2, e3⟩ := h2
  have d1 : i / 100 = j / 100 := digitChar_inj _ (by omega) _ (by omega) e1
  have d2 : i / 10 % 10 = j / 10 % 10 := digitChar_inj _ (by omega) _ (by omega) e2
  have d3 : i % 10 = j % 10 := digitChar_inj _ (by omega) _ (by omega) e3
  omega

theorem jsonName_inj {base : String} {i j : Nat} (hi : i < 1000) (hj : j < 1000)
    (h : jsonName base i = jsonName base j) : i = j := by
  have hd := congrArg String.data h
  rw [jsonName, jsonName, pad3_lt hi, pad3_lt hj] at hd
  simp only [String.data_append, List.append_assoc, List.cons_append,
    List.nil_append] at hd
  have h1 := List.append_cancel_left hd
  simp only [List.cons.injEq, and_true, true_and] at h1
  obtain ⟨e1, e2, e3⟩ := h1
  have d1 : i / 100 = j / 100 := digitChar_inj _ (by omega) _ (by omega) e1
  have d2 : i / 10 % 10 = j / 10 % 10 := digitChar_inj _ (by omega) _ (by omega) e2
  have d3 : i % 10 = j % 10 := digitChar_inj _ (by omega) _ (by omega) e3
  omega

theorem listStartsWith_append (l m : List Char) : listStartsWith l (l ++ m) = true := by
  induction l with
  | nil => rfl
  | cons c cs ih => simp [listStartsWith, ih]

theorem jsonName_startswith (base : String) (i : Nat) :
    pyStartswith (jsonName base i) (base ++ "_") = true := by
  have : (jsonName base i).data = (base ++ "_").data ++ (pad3 i ++ "_job_description.json").data := by
    simp [jsonName]
  rw [pyStartswith, this]
  exact listStartsWith_append _ _

theorem foldl_count (p : String → Bool) (l : List String) :
    ∀ a, l.foldl (fun acc f => if p f then acc + 1 else acc) a = a + (l.filter p).length := by
  induction l with
  | nil => intro a; simp
  | cons x xs ih =>
    intro a
    by_cases hx : p x
    · simp [List.foldl, hx, ih, List.filter_cons]
      omega
    · simp [List.foldl, hx, ih, List.filter_cons]

theorem chooseIndex_eq (files : List String) (base : String) :
    chooseIndex files base
      = (files.filter (fun f => pyStartswith f (base ++ "_"))).length + 1 := by
  rw [chooseIndex, foldl_count]
  omega

/-- If every file of the directory starts with `base ++ "_"`, the loop of
backend lines 180-183 ends with index one more than the number of files. -/
theorem chooseIndex_all (files : List String) (base : String)
    (h : ∀ f ∈ files, pyStartswith f (base ++ "_") = true) :
    chooseIndex files base = files.length + 1 := by
  rw [chooseIndex_eq, List.filter_eq_self.mpr h]

theorem jsonName_one_mem (b : String) (m : Nat) (hm : 0 < m) :
    jsonName b 1 ∈ (List.range m).map (fun k => jsonName b (k + 1)) :=
  List.mem_map.mpr ⟨0, List.mem_range.mpr hm, rfl⟩

theorem jsonName_succ_not_mem (b : String) (m : Nat) (hm : m + 1 ≤ 999) :
    jsonName b (m + 1) ∉ (List.range m).map (fun k => jsonName b (k + 1)) := by
  intro hmem
  obtain ⟨k, hk, he⟩ := List.mem_map.mp hmem
  have hkm := List.mem_range.mp hk
  have := jsonName_inj (i := k + 1) (j := m + 1) (by omega) (by omega) he
  omega

/-- On a directory holding exactly the files of the first `m` saves for this
company and position, `log_job_applied_for` picks index `m + 1`. -/
theorem chooseJsonName_mapped (c p : String) (m : Nat) :
    chooseJsonName ((List.range m).map (fun k => jsonName (base_name c p) (k + 1))) c p
      = jsonName (base_name c p) (m + 1) := by
  set b := base_name c p with hb
  by_cases hm0 : m = 0
  · subst hm0
    simp [chooseJsonName]
  · have hmpos : 0 < m := Nat.pos_of_ne_zero hm0
    have hmem_all : ∀ f ∈ (List.range m).map (fun k => jsonName b (k + 1)),
        pyStartswith f (b ++ "_") = true := by
      intro f hf
      obtain ⟨k, -, rfl⟩ := List.mem_map.mp hf
      exact jsonName_startswith b (k + 1)
    rw [chooseJsonName]
    simp only [← hb]
    rw [if_pos (jsonName_one_mem b m hmpos), chooseIndex_all _ _ hmem_all]
    simp

/-- After `n` saves (`n ≤ 999`) for the same company and position into an
initially empty directory, the directory holds exactly the files
`{base}_{k:03d}_job_description.json` for `k = 1, ..., n`, in order. -/
theorem runSame_eq (c p : String) :
    ∀ n, n ≤ 999 →
      runSame c p n = (List.range n).map (fun k => jsonName (base_name c p) (k + 1)) := by
  intro n
  induction n with
  | zero => intro _; rfl
  | succ m ih =>
    intro hm
    have ihm := ih (by omega)
    show pyWriteFileName (runSame c p m) (chooseJsonName (runSame c p m) c p) = _
    rw [ihm, chooseJsonName_mapped, pyWriteFileName,
      if_neg (jsonName_succ_not_mem _ m (by omega)), List.range_succ, List.map_append,
      List.map_cons, List.map_nil]

theorem runSame_nodup (c p : String) (n : Nat) (hn : n ≤ 999) :
    (runSame c p n).Nodup := by
  rw [runSame_eq c p n hn]
  refine List.Nodup.map_on ?_ (List.nodup_range ..)
  intro x hx y hy hxy
  have hx1 := List.mem_range.mp hx
  have hy1 := List.mem_range.mp hy
  have := jsonName_inj (i := x + 1) (j := y + 1) (by omega) (by omega) hxy
  omega

/-! ## Round-trip lemmas: the reader inverts the serialiser -/

theorem splitStr_cons (c : Char) (hq : c ≠ '"') (hb : c ≠ '\\') (l : List Char) :
    splitStr (c :: l) =
      match splitStr l with
      | none => none
      | some (a, b) => some (c :: a, b) := by
  rw [splitStr.eq_def]
  simp [hq, hb]

theorem splitStr_pass (ds : List Char) (h : ∀ x ∈ ds, x ≠ '"' ∧ x ≠ '\\') (l : List Char) :
    splitStr (ds ++ l) =
      match splitStr l with
      | none => none
      | some (a, b) => some (ds ++ a, b) := by
  induction ds with
  | nil =>
    simp only [List.nil_append]
    cases hsl : splitStr l <;> simp [hsl]
  | cons d ds ih =>
    have hd := h d (by simp)
    have hds : ∀ x ∈ ds, x ≠ '"' ∧ x ≠ '\\' := fun x hx => h x (by simp [hx])
    rw [List.cons_append, splitStr_cons d hd.1 hd.2, ih hds]
    cases hsl : splitStr l <;> simp

theorem hexDigitChar_ne : ∀ n < 16, hexDigitChar n ≠ '"' ∧ hexDigitChar n ≠ '\\' := by decide

theorem hexVal_hexDigitChar : ∀ m < 16, hexVal (hexDigitChar m) = some m := by decide

/-- The escaping of a character is either a backslash escape whose following
characters contain no quote and no backslash, or the character itself, which
is then neither a quote nor a backslash. -/
theorem escChar_shape (c : Char) :
    (∃ d ds, escChar c = '\\' :: d :: ds ∧ ∀ x ∈ ds, x ≠ '"' ∧ x ≠ '\\') ∨
    (escChar c = [c] ∧ c ≠ '"' ∧ c ≠ '\\') := by
  by_cases h1 : c = '"'
  · exact Or.inl ⟨'"', [], by simp [escChar, h1], by simp⟩
  by_cases h2 : c = '\\'
  · exact Or.inl ⟨'\\', [], by simp [escChar, h1, h2], by simp⟩
  by_cases h3 : c = '\n'
  · exact Or.inl ⟨'n', [], by simp [escChar, h1, h2, h3], by simp⟩
  by_cases h4 : c = '\r'
  · exact Or.inl ⟨'r', [], by simp [escChar, h1, h2, h3, h4], by simp⟩
  by_cases h5 : c = '\t'
  · exact Or.inl ⟨'t', [], by simp [escChar, h1, h2, h3, h4, h5], by simp⟩
  by_cases h6 : c.toNat = 8
  · exact Or.inl ⟨'b', [], by simp [escChar, h1, h2, h3, h4, h5, h6], by simp⟩
  by_cases h7 : c.toNat = 12
  · exact Or.inl ⟨'f', [], by simp [escChar, h1, h2, h3, h4, h5, h6, h7], by simp⟩
  by_cases h8 : c.toNat < 32
  · refine Or.inl ⟨'u', ['0', '0', hexDigitChar (c.toNat / 16), hexDigitChar (c.toNat % 16)],
      by simp [escChar, h1, h2, h3, h4, h5, h6, h7, h8], ?_⟩
    intro x hx
    simp only [List.mem_cons, List.not_mem_nil, or_false] at hx
    rcases hx with rfl | rfl | rfl | rfl
    · exact ⟨by decide, by decide⟩
    · exact ⟨by decide, by decide⟩
    · exact hexDigitChar_ne _ (by omega)
    · exact hexDigitChar_ne _ (by omega)
  · exact Or.inr ⟨by simp [escChar, h1, h2, h3, h4, h5, h6, h7, h8], h1, h2⟩

theorem splitStr_escChar (c : Char) {L A B : List Char} (h : splitStr L = some (A, B)) :
    splitStr (escChar c ++ L) = some (escChar c ++ A, B) := by
  rcases escChar_shape c with ⟨d, ds, he, hds⟩ | ⟨he, hq, hb⟩
  · have hp : splitStr (ds ++ L) = some (ds ++ A, B) := by
      rw [splitStr_pass ds hds L, h]
    rw [he, List.cons_append, List.cons_append, splitStr.eq_def]
    simp [hp]
  · rw [he, List.singleton_append, splitStr_cons c hq hb, h]
    rfl

/-- The reader finds the closing quote exactly after the escaped body. -/
theorem splitStr_esc (cs : List Char) (rest : List Char) :
    splitStr (escList cs ++ '"' :: rest) = some (escList cs, rest) := by
  induction cs with
  | nil =>
    rw [show escList [] = [] from rfl, List.nil_append, splitStr.eq_def]
    simp
  | cons c cs ih =>
    rw [show escList (c :: cs) = escChar c ++ escList cs from by simp [escList],
      List.append_assoc]
    exact splitStr_escChar c ih

theorem unescape_cons_ord (c : Char) (hb : c ≠ '\\') (L : List Char) :
    unescape (c :: L) =
      match unescape L with
      | none => none
      | some cs => some (c :: cs) := by
  rw [unescape.eq_def]
  simp [hb]

theorem unescape_cons_two (d u : Char) (hd : d ≠ 'u') (h : unescChar d = some u) (L : List Char) :
    unescape ('\\' :: d :: L) =
      match unescape L with
      | none => none
      | some cs => some (u :: cs) := by
  rw [unescape.eq_def]
  simp [hd, h]

theorem unescape_cons_u (h1 h2 h3 h4 : Char) (a b e f : Nat)
    (ha : hexVal h1 = some a) (hb : hexVal h2 = some b) (he : hexVal h3 = some e)
    (hf : hexVal h4 = some f) (L : List Char) :
    unescape ('\\' :: 'u' :: h1 :: h2 :: h3 :: h4 :: L) =
      match unescape L with
      | none => none
      | some cs => some (Char.ofNat (((a * 16 + b) * 16 + e) * 16 + f) :: cs) := by
  rw [unescape.eq_def]
  simp [ha, hb, he, hf]

/-- Decoding inverts the escaping of a single character. -/
theorem unescape_escChar (c : Char) {L cs : List Char} (h : unescape L = some cs) :
    unescape (escChar c ++ L) = some (c :: cs) := by
  by_cases h1 : c = '"'
  · rw [show escChar c = ['\\', '"'] from by simp [escChar, h1], List.cons_append,
      List.cons_append, List.nil_append, unescape_cons_two '"' '"' (by decide) (by decide), h, h1]
  by_cases h2 : c = '\\'
  · rw [show escChar c = ['\\', '\\'] from by simp [escChar, h1, h2], List.cons_append,
      List.cons_append, List.nil_append, unescape_cons_two '\\' '\\' (by decide) (by decide), h, h2]
  by_cases h3 : c = '\n'
  · rw [show escChar c = ['\\', 'n'] from by simp [escChar, h1, h2, h3], List.cons_append,
      List.cons_append, List.nil_append, unescape_cons_two 'n' '\n' (by decide) (by decide), h, h3]
  by_cases h4 : c = '\r'
  · rw [show escChar c = ['\\', 'r'] from by simp [escChar, h1, h2, h3, h4], List.cons_append,
      List.cons_append, List.nil_append, unescape_cons_two 'r' '\r' (by decide) (by decide), h, h4]
  by_cases h5 : c = '\t'
  · rw [show escChar c = ['\\', 't'] from by simp [escChar, h1, h2, h3, h4, h5], List.cons_append,
      List.cons_append, List.nil_append, unescape_cons_two 't' '\t' (by decide) (by decide), h, h5]
  by_cases h6 : c.toNat = 8
  · rw [show escChar c = ['\\', 'b'] from by simp [escChar, h1, h2, h3, h4, h5, h6],
      List.cons_append, List.cons_append, List.nil_append,
      unescape_cons_two 'b' (Char.ofNat 8) (by decide) (by decide), h, ← h6, Char.ofNat_toNat]
  by_cases h7 : c.toNat = 12
  · rw [show escChar c = ['\\', 'f'] from by simp [escChar, h1, h2, h3, h4, h5, h6, h7],
      List.cons_append, List.cons_append, List.nil_append,
      unescape_cons_two 'f' (Char.ofNat 12) (by decide) (by decide), h, ← h7, Char.ofNat_toNat]
  by_cases h8 : c.toNat < 32
  · rw [show escChar c
        = ['\\', 'u', '0', '0', hexDigitChar (c.toNat / 16), hexDigitChar (c.toNat % 16)] from
        by simp [escChar, h1, h2, h3, h4, h5, h6, h7, h8]]
    rw [List.cons_append, List.cons_append, List.cons_append, List.cons_append,
      List.cons_append, List.cons_append, List.nil_append]
    rw [unescape_cons_u '0' '0' (hexDigitChar (c.toNat / 16)) (hexDigitChar (c.toNat % 16))
      0 0 (c.toNat / 16) (c.toNat % 16) (by decide) (by decide)
      (hexVal_hexDigitChar _ (by omega)) (hexVal_hexDigitChar _ (by omega)), h]
    have harith : ((0 * 16 + 0) * 16 + c.toNat / 16) * 16 + c.toNat % 16 = c.toNat := by omega
    rw [harith, Char.ofNat_toNat]
  · rw [show escChar c = [c] from by simp [escChar, h1, h2, h3, h4, h5, h6, h7, h8],
      List.singleton_append, unescape_cons_ord c h2, h]

/-- Decoding inverts the escaping of a whole string body. -/
theorem unescape_esc : ∀ cs : List Char, unescape (escList cs) = some cs := by
  intro cs
  induction cs with
  | nil => rfl
  | cons c cs ih =>
    rw [show escList (c :: cs) = escChar c ++ escList cs from by simp [escList]]
    exact unescape_escChar c ih

theorem itemLine_data (kv : String × String) (rest : List Char) :
    (itemLine kv).data ++ rest
      = ' ' :: ' ' :: ' ' :: ' ' :: '"' ::
        (escList kv.1.data ++ '"' :: (':' :: ' ' :: '"' :: (escList kv.2.data ++ '"' :: rest))) := by
  simp [itemLine, pyJsonStr, String.data_append, List.append_assoc]

/-- Reading one serialised entry returns exactly the entry. -/
theorem parseKV_item (kv : String × String) (rest : List Char) :
    parseKV ((itemLine kv).data ++ rest) = some (kv, rest) := by
  rw [itemLine_data kv rest]
  simp [parseKV, splitStr_esc, unescape_esc]

theorem dump4_data (a b c d : String × String) :
    (pyJsonDump4 [a, b, c, d]).data
      = '\x7b' :: '\n' ::
        ((itemLine a).data ++ ',' :: '\n' ::
          ((itemLine b).data ++ ',' :: '\n' ::
            ((itemLine c).data ++ ',' :: '\n' ::
              ((itemLine d).data ++ ['\n', '\x7d'])))) := by
  simp [pyJsonDump4, joinCommaNl, String.data_append, List.append_assoc]

/-- Reading back a serialised four-entry record returns exactly its entries,
whatever strings they hold. -/
theorem parseRecord_dump4 (a b c d : String × String) :
    parseRecord (pyJsonDump4 [a, b, c, d]) = some [a, b, c, d] := by
  rw [parseRecord, dump4_data]
  simp [parseKV_item]

/-! ## Further helper lemmas -/

theorem mem_pyWriteFileName (files : List String) (name : String) :
    name ∈ pyWriteFileName files name := by
  by_cases h : name ∈ files <;> simp [pyWriteFileName, h]

/-- The serialised record spelt out: field order and 4-space indentation. -/
theorem pyJsonDump4_job_data (jd p c t : String) :
    pyJsonDump4 (job_data jd p c t)
      = "\x7b\n    \"job_description\": " ++ pyJsonStr jd
        ++ ",\n    \"position_name\": " ++ pyJsonStr p
        ++ ",\n    \"company_name\": " ++ pyJsonStr c
        ++ ",\n    \"date_applied\": " ++ pyJsonStr t ++ "\n\x7d" := by
  have hk1 : escList "job_description".data = "job_description".data := by decide
  have hk2 : escList "position_name".data = "position_name".data := by decide
  have hk3 : escList "company_name".data = "company_name".data := by decide
  have hk4 : escList "date_applied".data = "date_applied".data := by decide
  apply String.ext
  simp [pyJsonDump4, job_data, joinCommaNl, itemLine, pyJsonStr, String.data_append,
    List.append_assoc, hk1, hk2, hk3, hk4]

/-- Closed form of `log_job_applied_for`: on an unwritable path the IOError
propagates; otherwise the chosen file is written with the serialised record
and the function returns None. -/
theorem log_job_applied_for_eq (env : Env) (c p : String) :
    log_job_applied_for env c p =
      if env.writeFails then Except.error "IOError"
      else Except.ok ⟨pyWriteFileName env.files (chooseJsonName env.files c p),
        ⟨chooseJsonName env.files c p, pyJsonDump4 (job_data env.clipboard p c env.now)⟩,
        none⟩ := by
  by_cases h : env.writeFails <;> simp [log_job_applied_for, write_json_file, h]

/-! ## The claims -/

/-- C1 counterexample: two consecutive saves with the same company name "a"
but different positions "p" and "q" into an initially empty directory both
receive index 001, so the indices of the saved files are 1 followed by 1 —
not strictly increasing, refuting the claim as stated for sequences that fix
only the company name. -/
theorem C1_counterexample :
    chooseJsonName [] "a" "p" = "a_p_001_job_description.json" ∧
    chooseJsonName (pyWriteFileName [] (chooseJsonName [] "a" "p")) "a" "q"
      = "a_q_001_job_description.json" := by
  constructor <;> decide

/-- C1 (amended): for `n ≤ 999` calls of `log_job_applied_for` with the same
company name and the same position, starting from an empty company
directory, the k-th call saves the file with 3-digit zero-padded index k;
the names are pairwise distinct and no call ever picks a name already
present in the directory, so no record file is overwritten. -/
theorem C1_theorem (c p : String) (n : Nat) (hn : n ≤ 999) :
    runSame c p n = (List.range n).map (fun k => jsonName (base_name c p) (k + 1)) ∧
    (runSame c p n).Nodup ∧
    ∀ k, k < n → chooseJsonName (runSame c p k) c p ∉ runSame c p k := by
  refine ⟨runSame_eq c p n hn, runSame_nodup c p n hn, ?_⟩
  intro k hk
  rw [runSame_eq c p k (by omega), chooseJsonName_mapped]
  exact jsonName_succ_not_mem _ k (by omega)

theorem C1_theorem_witness :
    2 ≤ 999 ∧
    (runSame "a" "b" 2 = (List.range 2).map (fun k => jsonName (base_name "a" "b") (k + 1)) ∧
     (runSame "a" "b" 2).Nodup ∧
     ∀ k, k < 2 → chooseJsonName (runSame "a" "b" k) "a" "b" ∉ runSame "a" "b" k) :=
  ⟨by decide, C1_theorem "a" "b" 2 (by decide)⟩

/-- C2: for every directory state and normalised base name, the chosen file
name is the 001 candidate when no file of that exact name exists, and
otherwise carries index one plus the count of files whose names start with
`{base}_`, zero-padded to three digits. -/
theorem C2_theorem (files : List String) (c p : String) :
    chooseJsonName files c p =
      if jsonName (base_name c p) 1 ∈ files then
        jsonName (base_name c p)
          ((files.filter (fun f => pyStartswith f (base_name c p ++ "_"))).length + 1)
      else jsonName (base_name c p) 1 := by
  simp only [chooseJsonName, chooseIndex_eq]

/-- C3 counterexample: on an unwritable record path the IOError raised by
the file write propagates out of `log_job_applied_for` — the call evaluates
to the uncaught exception, not to any status message string. -/
theorem C3_counterexample :
    log_job_applied_for ⟨[], "desc", "2025-01-02T03:04:05", true⟩ "a" "p"
      = Except.error "IOError" := rfl

/-- C3 (amended): `log_job_applied_for` returns no message at all — on
success its Python return value is None — and an IOError-class failure from
the underlying file write propagates to the caller uncaught. -/
theorem C3_theorem (env : Env) (c p : String) :
    log_job_applied_for env c p =
      if env.writeFails then Except.error "IOError"
      else Except.ok ⟨pyWriteFileName env.files (chooseJsonName env.files c p),
        ⟨chooseJsonName env.files c p, pyJsonDump4 (job_data env.clipboard p c env.now)⟩,
        none⟩ :=
  log_job_applied_for_eq env c p

/-- C4 counterexample: the record written at a concrete input has exactly
the four fields job_description, position_name, company_name, date_applied;
resume_used_path is not among its keys, refuting the claimed field list. -/
theorem C4_counterexample :
    write_json_file ⟨[], "desc", "t0", false⟩ "pos" "co" "f.json"
      = Except.ok ⟨["f.json"], ⟨"f.json", pyJsonDump4 (job_data "desc" "pos" "co" "t0")⟩⟩ ∧
    (job_data "desc" "pos" "co" "t0").map Prod.fst
      = ["job_description", "position_name", "company_name", "date_applied"] ∧
    "resume_used_path" ∉ (job_data "desc" "pos" "co" "t0").map Prod.fst := by
  refine ⟨rfl, by decide, by decide⟩

/-- C4 (amended): every record written is JSON with 4-space indentation and
stable field order, holding exactly the fields job_description,
position_name, company_name and date_applied (the write-time timestamp
string); any character at or above code point 128 is kept unescaped; no
resume_used_path field exists. -/
theorem C4_theorem (jd p c t : String) (ch : Char) (hch : 128 ≤ ch.toNat) :
    (job_data jd p c t).map Prod.fst
      = ["job_description", "position_name", "company_name", "date_applied"] ∧
    pyJsonDump4 (job_data jd p c t)
      = "\x7b\n    \"job_description\": " ++ pyJsonStr jd
        ++ ",\n    \"position_name\": " ++ pyJsonStr p
        ++ ",\n    \"company_name\": " ++ pyJsonStr c
        ++ ",\n    \"date_applied\": " ++ pyJsonStr t ++ "\n\x7d" ∧
    escChar ch = [ch] := by
  refine ⟨by simp [job_data], pyJsonDump4_job_data jd p c t, ?_⟩
  have h1 : ch ≠ '"' := by intro h; rw [h] at hch; exact absurd hch (by decide)
  have h2 : ch ≠ '\\' := by intro h; rw [h] at hch; exact absurd hch (by decide)
  have h3 : ch ≠ '\n' := by intro h; rw [h] at hch; exact absurd hch (by decide)
  have h4 : ch ≠ '\r' := by intro h; rw [h] at hch; exact absurd hch (by decide)
  have h5 : ch ≠ '\t' := by intro h; rw [h] at hch; exact absurd hch (by decide)
  have h6 : ¬ch.toNat = 8 := by omega
  have h7 : ¬ch.toNat = 12 := by omega
  have h8 : ¬ch.toNat < 32 := by omega
  simp [escChar, h1, h2, h3, h4, h5, h6, h7, h8]

theorem C4_theorem_witness :
    128 ≤ 'é'.toNat ∧
    ((job_data "d" "p" "c" "t").map Prod.fst
        = ["job_description", "position_name", "company_name", "date_applied"] ∧
     pyJsonDump4 (job_data "d" "p" "c" "t")
        = "\x7b\n    \"job_description\": " ++ pyJsonStr "d"
          ++ ",\n    \"position_name\": " ++ pyJsonStr "p"
          ++ ",\n    \"company_name\": " ++ pyJsonStr "c"
          ++ ",\n    \"date_applied\": " ++ pyJsonStr "t" ++ "\n\x7d" ∧
     escChar 'é' = ['é']) :=
  ⟨by decide, C4_theorem "d" "p" "c" "t" 'é' (by decide)⟩

/-- C5 counterexample: at a concrete writable input the JSON record file is
produced, but the return value of `log_job_applied_for` is None — there is
no success message for any half of the operation, and no resume-copy step
exists in the code at all. -/
theorem C5_counterexample :
    (log_job_applied_for ⟨[], "d", "t", false⟩ "a" "p").map LogOutcome.ret
      = Except.ok none ∧
    (log_job_applied_for ⟨[], "d", "t", false⟩ "a" "p").map LogOutcome.files
      = Except.ok ["a_p_001_job_description.json"] :=
  ⟨rfl, rfl⟩

/-- C5 (amended): the code has no resume-copy step and `log_job_applied_for`
takes no resume path; whenever the record path is writable the JSON record
file is produced — the chosen name is in the resulting directory listing —
and the call returns None rather than a success message. -/
theorem C5_theorem (env : Env) (c p : String) (h : env.writeFails = false) :
    (log_job_applied_for env c p).map LogOutcome.ret = Except.ok none ∧
    (log_job_applied_for env c p).map LogOutcome.files
      = Except.ok (pyWriteFileName env.files (chooseJsonName env.files c p)) ∧
    chooseJsonName env.files c p ∈ pyWriteFileName env.files (chooseJsonName env.files c p) := by
  refine ⟨?_, ?_, mem_pyWriteFileName _ _⟩ <;>
    simp [log_job_applied_for, write_json_file, h, Except.map]

theorem C5_theorem_witness :
    (⟨[], "d", "t", false⟩ : Env).writeFails = false ∧
    ((log_job_applied_for ⟨[], "d", "t", false⟩ "a" "p").map LogOutcome.ret = Except.ok none ∧
     (log_job_applied_for ⟨[], "d", "t", false⟩ "a" "p").map LogOutcome.files
       = Except.ok (pyWriteFileName [] (chooseJsonName [] "a" "p")) ∧
     chooseJsonName [] "a" "p" ∈ pyWriteFileName [] (chooseJsonName [] "a" "p")) :=
  ⟨rfl, C5_theorem ⟨[], "d", "t", false⟩ "a" "p" rfl⟩

/-- C6 counterexample: when the remote append raises "quota exceeded", the
spreadsheet phase of `_update_records` propagates the exception — no status
string embedding the error text is produced and the label is never set —
while the directory listing (the record file written earlier) is unchanged. -/
theorem C6_counterexample :
    update_records_sheet_phase ["a_p_001_job_description.json"] none [["row"]]
        (some "Jobs Applied For") (some "quota exceeded")
      = (Except.error "quota exceeded", ["a_p_001_job_description.json"]) :=
  rfl

/-- C6 (amended): failures raised by the remote spreadsheet append are not
caught anywhere — `log_google_sheet_data` and the `_update_records` call
site both let them propagate, producing no status string — while the
already-written JSON record file is never reverted (the phase leaves the
directory listing untouched); on success the label reads "None\nNone". -/
theorem C6_theorem (files : List String) (jr : Option String) (data : List (List String))
    (tab : Option String) (e : String) :
    update_records_sheet_phase files jr data tab (some e) = (Except.error e, files) ∧
    update_records_sheet_phase files jr data tab none
      = (Except.ok (pyStrOfOpt jr ++ "\n" ++ "None"), files) :=
  ⟨rfl, rfl⟩

/-- C7: `create_folder_structure` returns the configured root extended by the
normalised company name, where normalisation maps every space to an
underscore and then lowercases each character; "CD Project Red" becomes
cd_project_red. -/
theorem C7_theorem (c root : String) :
    create_folder_structure c root
      = root ++ "/" ++ ⟨c.data.map (fun ch => Char.toLower (if ch = ' ' then '_' else ch))⟩ ∧
    create_folder_structure "CD Project Red" "root" = "root/cd_project_red" := by
  constructor
  · apply String.ext
    simp [create_folder_structure, pyNormalize, pyLower, pyReplaceSpaceUnderscore,
      String.data_append, List.map_map, Function.comp]
  · decide

/-- C8 counterexample: deserialising a record written at a concrete input
yields exactly the four stored fields — job description, position, company
and the write-time date — and no resume reference at all, refuting the
claimed recovery of a resume field. -/
theorem C8_counterexample :
    parseRecord (pyJsonDump4 (job_data "d" "p" "co" "t"))
      = some [("job_description", "d"), ("position_name", "p"), ("company_name", "co"),
              ("date_applied", "t")] ∧
    ((parseRecord (pyJsonDump4 (job_data "d" "p" "co" "t"))).getD []).map Prod.fst
      = ["job_description", "position_name", "company_name", "date_applied"] := by
  constructor <;> decide

/-- C8 (amended): for every field contents, deserialising the written file
reproduces exactly the original values of job_description, position_name and
company_name, with date_applied the only field added at write time; no
resume reference is stored. -/
theorem C8_theorem (jd p c t : String) :
    parseRecord (pyJsonDump4 (job_data jd p c t))
      = some [("job_description", jd), ("position_name", p),
              ("company_name", c), ("date_applied", t)] :=
  parseRecord_dump4 _ _ _ _

/-- C9: whenever `log_job_applied_for` completes, the file written holds the
serialised record whose job_description field is exactly the clipboard
contents of the environment; neither modelled function takes a
job-description argument, so no description supplied by a caller can reach
the file. -/
theorem C9_theorem (env : Env) (c p : String) (r : LogOutcome)
    (h : log_job_applied_for env c p = Except.ok r) :
    r.written.content = pyJsonDump4 (job_data env.clipboard p c env.now) ∧
    parseRecord r.written.content
      = some [("job_description", env.clipboard), ("position_name", p),
              ("company_name", c), ("date_applied", env.now)] := by
  rw [log_job_applied_for_eq] at h
  by_cases hw : env.writeFails
  · rw [if_pos hw] at h
    exact absurd h (by simp)
  · rw [if_neg hw] at h
    injection h with hr
    subst hr
    exact ⟨rfl, parseRecord_dump4 _ _ _ _⟩

theorem C9_theorem_witness :
    log_job_applied_for ⟨[], "clip", "t0", false⟩ "co" "pos"
        = Except.ok ⟨["co_pos_001_job_description.json"],
            ⟨"co_pos_001_job_description.json",
             pyJsonDump4 (job_data "clip" "pos" "co" "t0")⟩, none⟩ ∧
    ((⟨["co_pos_001_job_description.json"],
        ⟨"co_pos_001_job_description.json", pyJsonDump4 (job_data "clip" "pos" "co" "t0")⟩,
        none⟩ : LogOutcome).written.content
          = pyJsonDump4 (job_data "clip" "pos" "co" "t0") ∧
     parseRecord (⟨["co_pos_001_job_description.json"],
        ⟨"co_pos_001_job_description.json", pyJsonDump4 (job_data "clip" "pos" "co" "t0")⟩,
        none⟩ : LogOutcome).written.content
          = some [("job_description", "clip"), ("position_name", "pos"),
                  ("company_name", "co"), ("date_applied", "t0")]) :=
  ⟨rfl, C9_theorem ⟨[], "clip", "t0", false⟩ "co" "pos" _ rfl⟩

/-- C10 counterexample: two runs that differ only in their non-None tab_name
values — the empty string versus "Payments" — perform different spreadsheet
operations: the empty string is falsy in Python, so the first worksheet is
selected rather than "Jobs Applied For". -/
theorem C10_counterexample :
    update_google_sheet [["r"]] (some "") ≠ update_google_sheet [["r"]] (some "Payments") ∧
    (update_google_sheet [["r"]] (some "")).target = Worksheet.byIndex 0 ∧
    (update_google_sheet [["r"]] (some "Payments")).target
      = Worksheet.byName "Jobs Applied For" := by
  refine ⟨?_, rfl, rfl⟩
  decide

/-- C10 (amended): the tab_name value influences `update_google_sheet` only
through its truthiness: any two truthy (non-None, non-empty) values yield
identical operations targeting the worksheet literally named
"Jobs Applied For", while None and the empty string both select the first
worksheet. -/
theorem C10_theorem (data : List (List String)) (t1 t2 : Option String)
    (h1 : pyTruthy t1 = true) (h2 : pyTruthy t2 = true) :
    update_google_sheet data t1 = update_google_sheet data t2 ∧
    (update_google_sheet data t1).target = Worksheet.byName "Jobs Applied For" ∧
    (update_google_sheet data none).target = Worksheet.byIndex 0 ∧
    (update_google_sheet data (some "")).target = Worksheet.byIndex 0 := by
  refine ⟨?_, ?_, rfl, rfl⟩ <;> simp [update_google_sheet, h1, h2]

theorem C10_theorem_witness :
    pyTruthy (some "X") = true ∧ pyTruthy (some "Y") = true ∧
    (update_google_sheet [["r"]] (some "X") = update_google_sheet [["r"]] (some "Y") ∧
     (update_google_sheet [["r"]] (some "X")).target = Worksheet.byName "Jobs Applied For" ∧
     (update_google_sheet [["r"]] none).target = Worksheet.byIndex 0 ∧
     (update_google_sheet [["r"]] (some "")).target = Worksheet.byIndex 0) :=
  ⟨rfl, rfl, C10_theorem [["r"]] (some "X") (some "Y") rfl rfl⟩

end JobHunting
